import Mathlib

/-!
Shallow embedding of the magenta-rs handle / channel / wait-set layer
(src/src/lib.rs and src/src/channel.rs), over an operational model of the
foreign kernel syscall surface described by the crate's documentation.

Conventions:
- Raw handles (mx_handle_t, i32) are modelled as Int; valid handles are
  nonzero. Raw status codes (mx_status_t, i32) are modelled as Int.
- Rust Vec is modelled as RVec: the visible items plus the allocated
  capacity (reserve may over-allocate in Rust; we model the guaranteed
  minimum growth, which is all the code relies on).
- The kernel calls are foreign; mx_channel_read / mx_channel_write are
  modelled operationally on a ChannelPair state (two FIFO queues), per the
  documented ABI: write enqueues for the peer, read either reports
  BUFFER_TOO_SMALL with the exact required counts leaving the message
  pending, or dequeues and delivers. Wrapper functions whose behavior the
  claims quantify over every kernel outcome take the raw kernel status as
  an explicit parameter instead.
-/

namespace Magenta

/-- Raw kernel status code (mx_status_t = i32). -/
abbrev MxStatus := Int

def NO_ERROR : MxStatus := 0

def ERR_OUT_OF_RANGE : MxStatus := -13

def ERR_BUFFER_TOO_SMALL : MxStatus := -14

def ERR_SHOULD_WAIT : MxStatus := -27

/-- Rust `pub struct Status(sys::mx_status_t)`: a typed failure wrapping the raw code. -/
structure Status where
  code : MxStatus
deriving Repr, DecidableEq

/-- Rust `fn into_result<T, F>(status, f)`: non-negative statuses are success
(the payload thunk is run only there), negative ones become Err(Status(status)). -/
def into_result {T : Type} (status : MxStatus) (f : Unit → T) : Except Status T :=
  if 0 ≤ status then .ok (f ()) else .error ⟨status⟩

/-- The invalid (sentinel) raw handle value; channel.rs drop_handles skips value 0. -/
def INVALID_HANDLE : Int := 0

/-- Rust `fn size_to_u32_sat(size: usize) -> u32`. -/
def size_to_u32_sat (size : Nat) : Nat := min size (2 ^ 32 - 1)

/-- Model of Rust Vec: visible elements plus allocated capacity. -/
structure RVec (α : Type) where
  items : List α
  cap : Nat
deriving Repr, DecidableEq

/-- Vec invariant: capacity is at least the length. -/
def RVec.wf {α : Type} (v : RVec α) : Prop := v.items.length ≤ v.cap

/-- Rust `fn ensure_capacity<T>(vec, size)` (channel.rs): reserve so that the
capacity is at least `size`; never shrinks, no-op when size ≤ len. -/
def ensure_capacity {α : Type} (vec : RVec α) (size : Nat) : RVec α :=
  if size > vec.items.length then { vec with cap := max vec.cap size } else vec

/-- One message pending in a channel: a byte payload and transferred raw handles. -/
structure Message where
  bytes : List Nat
  handles : List Int
deriving Repr, DecidableEq

/-- Kernel-side counts are u32, so any message accepted by mx_channel_write
has both counts below 2^32. -/
def Message.wf (m : Message) : Prop :=
  m.bytes.length < 2 ^ 32 ∧ m.handles.length < 2 ^ 32

/-- Kernel state of one connected channel pair: q0 holds messages readable at
endpoint 0 (written by endpoint 1), q1 the converse, each FIFO. -/
structure ChannelPair where
  q0 : List Message
  q1 : List Message
deriving Repr, DecidableEq

/-- Messages readable at an endpoint (false = endpoint 0, true = endpoint 1). -/
def ChannelPair.queueOf (st : ChannelPair) (side : Bool) : List Message :=
  if side then st.q1 else st.q0

/-- Replace the queue readable at an endpoint. -/
def ChannelPair.setQueue (st : ChannelPair) (side : Bool) (q : List Message) : ChannelPair :=
  if side then { st with q1 := q } else { st with q0 := q }

/-- Enqueue a message written at `side` into the peer's readable queue. -/
def ChannelPair.enqueue (st : ChannelPair) (side : Bool) (m : Message) : ChannelPair :=
  if side then { st with q0 := st.q0 ++ [m] } else { st with q1 := st.q1 ++ [m] }

/-- Every pending message has kernel-representable (u32) counts. -/
def ChannelPair.wf (st : ChannelPair) : Prop :=
  (∀ m ∈ st.q0, m.wf) ∧ (∀ m ∈ st.q1, m.wf)

/-- Rust `Channel::create` (mx_channel_create): a fresh connected pair with no
pending messages; failure leaves no partial state, so the model is the
success outcome. -/
def Channel.create : ChannelPair := ⟨[], []⟩

/-- Outcome of the foreign mx_channel_read call. -/
inductive ReadOutcome where
  | tooSmall (needBytes needHandles : Nat)
  | delivered (m : Message)
  | err (s : MxStatus)
deriving Repr, DecidableEq

/-- Foreign mx_channel_read, per the documented ABI: empty queue reports
ERR_SHOULD_WAIT; a pending message larger than either capacity reports
ERR_BUFFER_TOO_SMALL together with the exact required counts and leaves the
message pending; otherwise the head message is dequeued and delivered. -/
def mx_channel_read (st : ChannelPair) (side : Bool) (numBytes numHandles : Nat) :
    ReadOutcome × ChannelPair :=
  match st.queueOf side with
  | [] => (.err ERR_SHOULD_WAIT, st)
  | m :: rest =>
    if m.bytes.length > numBytes ∨ m.handles.length > numHandles then
      (.tooSmall m.bytes.length m.handles.length, st)
    else
      (.delivered m, st.setQueue side rest)

/-- Rust `struct MessageBuf` (channel.rs): a byte vector and a raw-handle
vector; a taken handle slot holds INVALID_HANDLE. -/
structure MessageBuf where
  bytes : RVec Nat
  handles : RVec Int
deriving Repr, DecidableEq

/-- Rust `MessageBuf::new()`. -/
def MessageBuf.new : MessageBuf := ⟨⟨[], 0⟩, ⟨[], 0⟩⟩

/-- Both vectors satisfy the Vec invariant. -/
def MessageBuf.wf (b : MessageBuf) : Prop := b.bytes.wf ∧ b.handles.wf

/-- Rust `MessageBuf::ensure_capacity_bytes`. -/
def MessageBuf.ensure_capacity_bytes (b : MessageBuf) (n : Nat) : MessageBuf :=
  { b with bytes := ensure_capacity b.bytes n }

/-- Rust `MessageBuf::ensure_capacity_handles`. -/
def MessageBuf.ensure_capacity_handles (b : MessageBuf) (n : Nat) : MessageBuf :=
  { b with handles := ensure_capacity b.handles n }

/-- Rust `MessageBuf::bytes()`: the visible byte slice. -/
def MessageBuf.bytesView (b : MessageBuf) : List Nat := b.bytes.items

/-- Rust `MessageBuf::n_handles()`: slot count, unaffected by take_handle. -/
def MessageBuf.n_handles (b : MessageBuf) : Nat := b.handles.items.length

/-- Rust `MessageBuf::take_handle(index)`: if the slot exists and is not the
sentinel, return its handle and overwrite the slot with INVALID_HANDLE;
otherwise None with the buffer unchanged. -/
def MessageBuf.take_handle (b : MessageBuf) (index : Nat) : Option Int × MessageBuf :=
  match b.handles.items[index]? with
  | none => (none, b)
  | some h =>
    if h = INVALID_HANDLE then (none, b)
    else (some h,
      { b with handles := { b.handles with items := b.handles.items.set index INVALID_HANDLE } })

/-- The raw handles that `MessageBuf::drop_handles` (channel.rs) closes: every
slot whose value is not 0, i.e. every untaken slot; this is the effect log of
the Drop impl and of the first half of reset_handles. -/
def MessageBuf.dropHandlesClosed (b : MessageBuf) : List Int :=
  b.handles.items.filter (fun h => h ≠ INVALID_HANDLE)

/-- Number of untaken slots (slots still holding a non-sentinel handle). -/
def MessageBuf.untakenCount (b : MessageBuf) : Nat :=
  (b.handles.items.filter (fun h => h ≠ INVALID_HANDLE)).length

/-- Rust `MessageBuf::reset_handles` (channel.rs): close the untaken handles
(the effect is dropHandlesClosed) and clear the handle vector; capacities and
the byte region are untouched. -/
def MessageBuf.reset_handles (b : MessageBuf) : MessageBuf :=
  { b with handles := { b.handles with items := [] } }

/-- Rust `Channel::read_raw`: reset the buffer's handles, call the kernel with
the saturated capacities; ERR_BUFFER_TOO_SMALL becomes Err with the required
counts, success sets both lengths to the delivered counts, any other status
flows through into_result. -/
def Channel.read_raw (st : ChannelPair) (side : Bool) (buf : MessageBuf) :
    Except (Nat × Nat) (Except Status Unit) × MessageBuf × ChannelPair :=
  let buf1 := buf.reset_handles
  let nb := size_to_u32_sat buf1.bytes.cap
  let nh := size_to_u32_sat buf1.handles.cap
  match mx_channel_read st side nb nh with
  | (.tooSmall needB needH, st1) => (.error (needB, needH), buf1, st1)
  | (.delivered m, st1) =>
    (.ok (.ok ()),
     { bytes := ⟨m.bytes, buf1.bytes.cap⟩, handles := ⟨m.handles, buf1.handles.cap⟩ }, st1)
  | (.err s, st1) => (.ok (.error ⟨s⟩), buf1, st1)

/-- Rust `Channel::read`'s retry loop, with explicit fuel: on a too-small
outcome grow both capacities to the reported requirements and retry. -/
def Channel.readLoop : Nat → ChannelPair → Bool → MessageBuf →
    Option (Except Status Unit × MessageBuf × ChannelPair)
  | 0, _, _, _ => none
  | fuel + 1, st, side, buf =>
    match Channel.read_raw st side buf with
    | (.ok result, buf1, st1) => some (result, buf1, st1)
    | (.error (nb, nh), buf1, st1) =>
      Channel.readLoop fuel st1 side ((buf1.ensure_capacity_bytes nb).ensure_capacity_handles nh)

/-- Rust `Channel::read`: the loop needs at most one regrowth, so fuel 2. -/
def Channel.read (st : ChannelPair) (side : Bool) (buf : MessageBuf) :
    Option (Except Status Unit × MessageBuf × ChannelPair) :=
  Channel.readLoop 2 st side buf

/-- Rust `Channel::write` against the operational kernel: the length checks
(usize to u32 conversion failing with ErrOutOfRange before any kernel call),
then mx_channel_write enqueues for the peer and the handle vector is emptied. -/
def Channel.write (st : ChannelPair) (side : Bool) (bytes : List Nat) (handles : List Int) :
    Except Status Unit × List Int × ChannelPair :=
  if bytes.length < 2 ^ 32 then
    if handles.length < 2 ^ 32 then
      (.ok (), [], st.enqueue side ⟨bytes, handles⟩)
    else (.error ⟨ERR_OUT_OF_RANGE⟩, handles, st)
  else (.error ⟨ERR_OUT_OF_RANGE⟩, handles, st)

/-- Rust `Channel::write` with the foreign mx_channel_write status abstracted
as a parameter, to quantify over every kernel outcome: returns the Result and
the caller's handle vector afterwards. -/
def Channel.writeWithStatus (kstatus : MxStatus) (bytes : List Nat) (handles : List Int) :
    Except Status Unit × List Int :=
  if bytes.length < 2 ^ 32 then
    if handles.length < 2 ^ 32 then
      match into_result kstatus (fun _ => ()) with
      | .ok _ => (.ok (), [])
      | .error e => (.error e, handles)
    else (.error ⟨ERR_OUT_OF_RANGE⟩, handles)
  else (.error ⟨ERR_OUT_OF_RANGE⟩, handles)

/-- Rust `MessagePipe::write_raw` (lib.rs): explicit u32::MAX length checks
failing with ERR_OUT_OF_RANGE before the kernel call; any kernel status other
than NO_ERROR is returned as Err with the handle vector untouched; on
NO_ERROR the vector is emptied. -/
def MessagePipe.write_raw (kstatus : MxStatus) (bytes : List Nat) (handles : List Int) :
    Except Status Unit × List Int :=
  if bytes.length > 2 ^ 32 - 1 ∨ handles.length > 2 ^ 32 - 1 then
    (.error ⟨ERR_OUT_OF_RANGE⟩, handles)
  else if kstatus ≠ NO_ERROR then (.error ⟨kstatus⟩, handles)
  else (.ok (), [])

/-- Rust `struct MessageBuf` of lib.rs (the MessagePipe flavor): bytes, raw
handles, and unused_ix marking how many leading slots were already yielded. -/
structure PipeMessageBuf where
  bytes : List Nat
  handles : List Int
  unused_ix : Nat
deriving Repr, DecidableEq

/-- Rust lib.rs `MessageBuf::n_handles()`: remaining (untaken) handles. -/
def PipeMessageBuf.n_handles (b : PipeMessageBuf) : Nat :=
  b.handles.length - b.unused_ix

/-- The raw handles lib.rs `MessageBuf::drop_handles` closes: every slot from
unused_ix on (the untaken ones). -/
def PipeMessageBuf.dropHandlesClosed (b : PipeMessageBuf) : List Int :=
  b.handles.drop b.unused_ix

/-- Rust lib.rs `MessageBuf::reset_handles`: close the untaken handles, reset
unused_ix to 0 and clear the handle vector; the byte region is untouched. -/
def PipeMessageBuf.reset_handles (b : PipeMessageBuf) : PipeMessageBuf :=
  { b with unused_ix := 0, handles := [] }

/-- Rust `sys::mx_signals_state_t`: satisfied and satisfiable signal masks. -/
structure SignalsState where
  satisfied : Nat
  satisfiable : Nat
deriving Repr, DecidableEq

/-- Rust `struct WaitSetResult(sys::mx_waitset_result_t)`: the record one
wait-set poll produces per ready entry, as read by its accessors cookie(),
wait_result() and signals_state(). -/
structure WaitSetResult where
  cookie : Nat
  wait_result_raw : MxStatus
  signals : SignalsState
deriving Repr, DecidableEq

/-- Rust `WaitSetResult::wait_result()`: the per-entry status wrapped in Status. -/
def WaitSetResult.wait_result (r : WaitSetResult) : Status := ⟨r.wait_result_raw⟩

/-- Rust `WaitSetResult::signals_state()`. -/
def WaitSetResult.signals_state (r : WaitSetResult) : SignalsState := r.signals

/-- Rust `WaitSet::wait`: the foreign mx_waitset_wait is modelled per the
documented ABI (capacity-probed: it fills at most the passed capacity with
ready-entry records and reports the maximum possible count); `ready` is the
kernel's list of ready-entry records and `kstatus` its status. The wrapper
passes the saturated capacity, clears the results vector and returns Err on
any status other than NO_ERROR, and otherwise sets the vector's length to the
delivered count and returns the maximum. No growth of `results` happens. -/
def WaitSet.wait (kstatus : MxStatus) (ready : List WaitSetResult)
    (results : RVec WaitSetResult) : Except Status Nat × RVec WaitSetResult :=
  if kstatus ≠ NO_ERROR then
    (.error ⟨kstatus⟩, { results with items := [] })
  else
    (.ok ready.length, { results with items := ready.take (size_to_u32_sat results.cap) })

/-! ### Helper lemmas -/

theorem ensure_capacity_items {α : Type} (v : RVec α) (n : Nat) :
    (ensure_capacity v n).items = v.items := by
  unfold ensure_capacity
  split <;> rfl

theorem ensure_capacity_cap_ge {α : Type} (v : RVec α) (n : Nat) (hw : v.wf) :
    n ≤ (ensure_capacity v n).cap := by
  have hw2 : v.items.length ≤ v.cap := hw
  unfold ensure_capacity
  split
  · exact Nat.le_max_right _ _
  · omega

theorem ensure_capacity_wf {α : Type} (v : RVec α) (n : Nat) (hw : v.wf) :
    (ensure_capacity v n).wf := by
  have hw2 : v.items.length ≤ v.cap := hw
  show (ensure_capacity v n).items.length ≤ (ensure_capacity v n).cap
  unfold ensure_capacity
  split
  · exact le_trans hw2 (Nat.le_max_left _ _)
  · exact hw2

theorem take_handle_fst_of_untaken (b : MessageBuf) (i : Nat) (h : Int)
    (hget : b.handles.items[i]? = some h) (hvalid : h ≠ INVALID_HANDLE) :
    (b.take_handle i).1 = some h := by
  unfold MessageBuf.take_handle
  rw [hget]
  simp [hvalid]

theorem take_handle_snd_of_untaken (b : MessageBuf) (i : Nat) (h : Int)
    (hget : b.handles.items[i]? = some h) (hvalid : h ≠ INVALID_HANDLE) :
    (b.take_handle i).2 =
      { b with handles := { b.handles with items := b.handles.items.set i INVALID_HANDLE } } := by
  unfold MessageBuf.take_handle
  rw [hget]
  simp [hvalid]

theorem take_handle_none_of_taken (b : MessageBuf) (i : Nat)
    (hslot : b.handles.items[i]? = some INVALID_HANDLE) :
    b.take_handle i = (none, b) := by
  unfold MessageBuf.take_handle
  rw [hslot]
  simp

theorem take_handle_none_of_oob (b : MessageBuf) (i : Nat)
    (hslot : b.handles.items[i]? = none) :
    b.take_handle i = (none, b) := by
  unfold MessageBuf.take_handle
  rw [hslot]

theorem filter_set_invalid_length (l : List Int) :
    ∀ (i : Nat) (h : Int), l[i]? = some h → h ≠ INVALID_HANDLE →
      ((l.set i INVALID_HANDLE).filter (fun x => x ≠ INVALID_HANDLE)).length + 1 =
        (l.filter (fun x => x ≠ INVALID_HANDLE)).length := by
  induction l with
  | nil => intro i h hget; simp at hget
  | cons a t ih =>
    intro i h hget hvalid
    cases i with
    | zero =>
      simp at hget
      subst hget
      have ha : a ≠ (0 : Int) := hvalid
      simp [List.filter_cons, ha, INVALID_HANDLE]
    | succ j =>
      simp at hget
      have := ih j h hget hvalid
      by_cases ha : a = INVALID_HANDLE
      · simpa [List.filter_cons, ha] using this
      · simpa [List.filter_cons, ha] using this

theorem reset_handles_spec (b : MessageBuf) :
    b.reset_handles.bytes = b.bytes ∧
    b.reset_handles.handles.items = [] ∧
    b.reset_handles.handles.cap = b.handles.cap :=
  ⟨rfl, rfl, rfl⟩

theorem reset_handles_wf (b : MessageBuf) (hb : b.wf) : b.reset_handles.wf :=
  ⟨hb.1, Nat.zero_le _⟩

theorem wf_head (st : ChannelPair) (side : Bool) (m : Message) (rest : List Message)
    (hwf : st.wf) (hq : st.queueOf side = m :: rest) : m.wf := by
  cases side
  · simp only [ChannelPair.queueOf, Bool.false_eq_true, if_false] at hq
    exact hwf.1 m (by rw [hq]; exact List.mem_cons_self m rest)
  · simp only [ChannelPair.queueOf, if_true] at hq
    exact hwf.2 m (by rw [hq]; exact List.mem_cons_self m rest)

theorem read_raw_empty (st : ChannelPair) (side : Bool) (buf : MessageBuf)
    (hq : st.queueOf side = []) :
    Channel.read_raw st side buf = (.ok (.error ⟨ERR_SHOULD_WAIT⟩), buf.reset_handles, st) := by
  unfold Channel.read_raw mx_channel_read
  rw [hq]

theorem read_raw_too_small (st : ChannelPair) (side : Bool) (buf : MessageBuf)
    (m : Message) (rest : List Message) (hq : st.queueOf side = m :: rest)
    (hbig : m.bytes.length > size_to_u32_sat buf.bytes.cap ∨
            m.handles.length > size_to_u32_sat buf.handles.cap) :
    Channel.read_raw st side buf =
      (.error (m.bytes.length, m.handles.length), buf.reset_handles, st) := by
  unfold Channel.read_raw mx_channel_read
  rw [hq]
  simp only [MessageBuf.reset_handles]
  rw [if_pos hbig]

theorem read_raw_delivered (st : ChannelPair) (side : Bool) (buf : MessageBuf)
    (m : Message) (rest : List Message) (hq : st.queueOf side = m :: rest)
    (hfit : ¬ (m.bytes.length > size_to_u32_sat buf.bytes.cap ∨
               m.handles.length > size_to_u32_sat buf.handles.cap)) :
    Channel.read_raw st side buf =
      (.ok (.ok ()),
       ⟨⟨m.bytes, buf.bytes.cap⟩, ⟨m.handles, buf.handles.cap⟩⟩,
       st.setQueue side rest) := by
  unfold Channel.read_raw mx_channel_read
  rw [hq]
  simp only [MessageBuf.reset_handles]
  rw [if_neg hfit]

theorem read_raw_err_inv (st : ChannelPair) (side : Bool) (buf : MessageBuf)
    (nb nh : Nat) (buf1 : MessageBuf) (st1 : ChannelPair)
    (h : Channel.read_raw st side buf = (.error (nb, nh), buf1, st1)) :
    ∃ m rest, st.queueOf side = m :: rest ∧ nb = m.bytes.length ∧ nh = m.handles.length ∧
      buf1 = buf.reset_handles ∧ st1 = st := by
  rcases hq : st.queueOf side with _ | ⟨m, rest⟩
  · rw [read_raw_empty st side buf hq] at h
    exact absurd h (by simp)
  · by_cases hbig : (m.bytes.length > size_to_u32_sat buf.bytes.cap ∨
                     m.handles.length > size_to_u32_sat buf.handles.cap)
    · rw [read_raw_too_small st side buf m rest hq hbig] at h
      simp only [Prod.mk.injEq, Except.error.injEq] at h
      exact ⟨m, rest, rfl, h.1.1.symm, h.1.2.symm, h.2.1.symm, h.2.2.symm⟩

    · rw [read_raw_delivered st side buf m rest hq hbig] at h
      exact absurd h (by simp)

theorem sat_ge_of_le (n cap : Nat) (hn : n < 2 ^ 32) (hcap : n ≤ cap) :
    n ≤ size_to_u32_sat cap := by
  unfold size_to_u32_sat
  omega

theorem grown_buf_spec (buf1 : MessageBuf) (nb nh : Nat) (hb : buf1.wf) :
    nb ≤ ((buf1.ensure_capacity_bytes nb).ensure_capacity_handles nh).bytes.cap ∧
    nh ≤ ((buf1.ensure_capacity_bytes nb).ensure_capacity_handles nh).handles.cap ∧
    ((buf1.ensure_capacity_bytes nb).ensure_capacity_handles nh).wf := by
  simp only [MessageBuf.ensure_capacity_bytes, MessageBuf.ensure_capacity_handles]
  exact ⟨ensure_capacity_cap_ge _ _ hb.1, ensure_capacity_cap_ge _ _ hb.2,
         ensure_capacity_wf _ _ hb.1, ensure_capacity_wf _ _ hb.2⟩

theorem read_raw_after_growth (st : ChannelPair) (side : Bool) (buf : MessageBuf)
    (nb nh : Nat) (buf1 : MessageBuf) (st1 : ChannelPair)
    (hwf : st.wf) (hbuf : buf.wf)
    (h : Channel.read_raw st side buf = (.error (nb, nh), buf1, st1)) :
    ∃ m rest, st1.queueOf side = m :: rest ∧
      Channel.read_raw st1 side ((buf1.ensure_capacity_bytes nb).ensure_capacity_handles nh) =
        (.ok (.ok ()),
         ⟨⟨m.bytes, ((buf1.ensure_capacity_bytes nb).ensure_capacity_handles nh).bytes.cap⟩,
          ⟨m.handles, ((buf1.ensure_capacity_bytes nb).ensure_capacity_handles nh).handles.cap⟩⟩,
         st1.setQueue side rest) := by
  obtain ⟨m, rest, hq, hnb, hnh, hbuf1, hst1⟩ := read_raw_err_inv st side buf nb nh buf1 st1 h
  subst hnb hnh hbuf1 hst1
  have hm : m.wf := wf_head _ side m rest hwf hq
  obtain ⟨hcb, hch, hwf2⟩ :=
    grown_buf_spec buf.reset_handles m.bytes.length m.handles.length (reset_handles_wf buf hbuf)
  have h1 := sat_ge_of_le m.bytes.length _ hm.1 hcb
  have h2 := sat_ge_of_le m.handles.length _ hm.2 hch
  refine ⟨m, rest, hq, ?_⟩
  exact read_raw_delivered _ _ _ _ _ hq (by push_neg; exact ⟨h1, h2⟩)

theorem readLoop_succ_ok (fuel : Nat) (st st1 : ChannelPair) (side : Bool)
    (buf buf1 : MessageBuf) (r : Except Status Unit)
    (h : Channel.read_raw st side buf = (.ok r, buf1, st1)) :
    Channel.readLoop (fuel + 1) st side buf = some (r, buf1, st1) := by
  unfold Channel.readLoop
  rw [h]

theorem readLoop_succ_err (fuel : Nat) (st st1 : ChannelPair) (side : Bool)
    (buf buf1 : MessageBuf) (nb nh : Nat)
    (h : Channel.read_raw st side buf = (.error (nb, nh), buf1, st1)) :
    Channel.readLoop (fuel + 1) st side buf =
      Channel.readLoop fuel st1 side
        ((buf1.ensure_capacity_bytes nb).ensure_capacity_handles nh) := by
  conv_lhs => unfold Channel.readLoop
  rw [h]

theorem readLoop_two_spec (st : ChannelPair) (side : Bool) (buf : MessageBuf)
    (hwf : st.wf) (hbuf : buf.wf) :
    ∃ out, Channel.readLoop 2 st side buf = some out ∧
      ∀ fuel, 2 ≤ fuel → Channel.readLoop fuel st side buf = some out := by
  match hr : Channel.read_raw st side buf with
  | (.ok r, buf1, st1) =>
    refine ⟨(r, buf1, st1), readLoop_succ_ok 1 st st1 side buf buf1 r hr, ?_⟩
    intro fuel hf
    obtain ⟨k, rfl⟩ : ∃ k, fuel = k + 1 := ⟨fuel - 1, by omega⟩
    exact readLoop_succ_ok k st st1 side buf buf1 r hr
  | (.error (nb, nh), buf1, st1) =>
    obtain ⟨m, rest, hq, hdeliv⟩ :=
      read_raw_after_growth st side buf nb nh buf1 st1 hwf hbuf hr
    refine ⟨(.ok (),
      ⟨⟨m.bytes, ((buf1.ensure_capacity_bytes nb).ensure_capacity_handles nh).bytes.cap⟩,
       ⟨m.handles, ((buf1.ensure_capacity_bytes nb).ensure_capacity_handles nh).handles.cap⟩⟩,
      st1.setQueue side rest), ?_, ?_⟩
    · rw [readLoop_succ_err 1 st st1 side buf buf1 nb nh hr]
      exact readLoop_succ_ok 0 st1 _ side _ _ _ hdeliv
    · intro fuel hf
      obtain ⟨k, rfl⟩ : ∃ k, fuel = k + 2 := ⟨fuel - 2, by omega⟩
      rw [readLoop_succ_err (k + 1) st st1 side buf buf1 nb nh hr]
      exact readLoop_succ_ok k st1 _ side _ _ _ hdeliv

theorem read_delivers (st : ChannelPair) (side : Bool) (buf : MessageBuf)
    (m : Message) (rest : List Message) (hq : st.queueOf side = m :: rest)
    (hwf : st.wf) (hbuf : buf.wf) :
    ∃ cb ch, Channel.read st side buf =
      some (.ok (), ⟨⟨m.bytes, cb⟩, ⟨m.handles, ch⟩⟩, st.setQueue side rest) := by
  by_cases hbig : (m.bytes.length > size_to_u32_sat buf.bytes.cap ∨
                   m.handles.length > size_to_u32_sat buf.handles.cap)
  · have hr := read_raw_too_small st side buf m rest hq hbig
    obtain ⟨m2, rest2, hq2, hdeliv⟩ :=
      read_raw_after_growth st side buf _ _ _ _ hwf hbuf hr
    rw [hq] at hq2
    injection hq2 with hm2 hrest2
    subst hm2 hrest2
    refine ⟨((buf.reset_handles.ensure_capacity_bytes m.bytes.length).ensure_capacity_handles
        m.handles.length).bytes.cap,
      ((buf.reset_handles.ensure_capacity_bytes m.bytes.length).ensure_capacity_handles
        m.handles.length).handles.cap, ?_⟩
    unfold Channel.read
    rw [readLoop_succ_err 1 st st side buf _ _ _ hr]
    exact readLoop_succ_ok 0 st _ side _ _ _ hdeliv
  · have hr := read_raw_delivered st side buf m rest hq hbig
    refine ⟨buf.bytes.cap, buf.handles.cap, ?_⟩
    unfold Channel.read
    exact readLoop_succ_ok 1 st _ side buf _ _ hr

/-- C8: into_result classifies every non-negative raw status as success with the
lazily-computed payload, and every negative status as Err carrying exactly the
raw code; on the negative branch the payload thunk is never consulted (the
result is the same for every thunk). -/
theorem C8_into_result_classification (s : MxStatus) (T : Type) (f g : Unit → T) :
    (0 ≤ s → into_result s f = .ok (f ())) ∧
    (s < 0 → into_result s f = .error ⟨s⟩ ∧ into_result s f = into_result s g) := by
  constructor
  · intro hpos
    simp [into_result, hpos]
  · intro hneg
    have hnot : ¬ (0 ≤ s) := not_le.mpr hneg
    simp [into_result, hnot]

/-- Witness for C8 at concrete statuses 3 and -14. -/
theorem C8_witness :
    into_result 3 (fun _ => (7 : Nat)) = .ok 7 ∧
    into_result (-14) (fun _ => (7 : Nat)) = .error ⟨-14⟩ :=
  ⟨(C8_into_result_classification 3 Nat (fun _ => 7) (fun _ => 7)).1 (by decide),
   ((C8_into_result_classification (-14) Nat (fun _ => 7) (fun _ => 7)).2 (by decide)).1⟩

/-- C2: both channel write paths relinquish handle ownership exactly on
success: whatever status the kernel reports, Channel::write and
MessagePipe::write_raw leave the caller's handle vector empty on Ok, and on
any Err (including the pre-kernel out-of-range check) leave it exactly as it
was, so each handle remains independently closable by the caller. -/
theorem C2_write_handle_ownership (kstatus : MxStatus) (bytes : List Nat) (handles : List Int) :
    ((Channel.writeWithStatus kstatus bytes handles).1.isOk = true →
      (Channel.writeWithStatus kstatus bytes handles).2 = []) ∧
    (∀ e, (Channel.writeWithStatus kstatus bytes handles).1 = .error e →
      (Channel.writeWithStatus kstatus bytes handles).2 = handles) ∧
    ((MessagePipe.write_raw kstatus bytes handles).1.isOk = true →
      (MessagePipe.write_raw kstatus bytes handles).2 = []) ∧
    (∀ e, (MessagePipe.write_raw kstatus bytes handles).1 = .error e →
      (MessagePipe.write_raw kstatus bytes handles).2 = handles) := by
  refine ⟨?_, ?_, ?_, ?_⟩
  · intro hok
    unfold Channel.writeWithStatus into_result at hok ⊢
    split_ifs at hok ⊢ <;> simp_all [Except.isOk, Except.toBool]
  · intro e herr
    unfold Channel.writeWithStatus into_result at herr ⊢
    split_ifs at herr ⊢ <;> simp_all [Except.isOk, Except.toBool]
  · intro hok
    unfold MessagePipe.write_raw at hok ⊢
    split_ifs at hok ⊢ <;> simp_all [Except.isOk, Except.toBool]
  · intro e herr
    unfold MessagePipe.write_raw at herr ⊢
    split_ifs at herr ⊢ <;> simp_all [Except.isOk, Except.toBool]

/-- Witness for C2: success at kernel status 0 empties the vector, failure at
kernel status -12 (and the out-of-range path untouched) preserves it. -/
theorem C2_witness :
    (Channel.writeWithStatus 0 [1] [5]).2 = [] ∧
    (MessagePipe.write_raw (-12) [1] [5]).2 = [5] :=
  ⟨(C2_write_handle_ownership 0 [1] [5]).1 (by decide),
   (C2_write_handle_ownership (-12) [1] [5]).2.2.2 ⟨-12⟩ (by rfl)⟩

/-- C5: take_handle is take-once: on a slot that exists and is untaken (as
every slot is right after a successful read) the first call returns Some with
that owned handle and overwrites the slot with the sentinel without changing
n_handles; a repeat call on the same index, and any call with an index out of
range, returns None with the buffer unchanged — never a duplicate handle. -/
theorem C5_take_handle_once (b : MessageBuf) (i : Nat) :
    (∀ h, b.handles.items[i]? = some h → h ≠ INVALID_HANDLE →
      (b.take_handle i).1 = some h ∧
      ((b.take_handle i).2).handles.items[i]? = some INVALID_HANDLE ∧
      (((b.take_handle i).2).take_handle i).1 = none ∧
      ((b.take_handle i).2).n_handles = b.n_handles) ∧
    (b.n_handles ≤ i → (b.take_handle i).1 = none ∧ (b.take_handle i).2 = b) := by
  constructor
  · intro h hget hvalid
    have hlt : i < b.handles.items.length := (List.getElem?_eq_some.mp hget).1
    have hsnd := take_handle_snd_of_untaken b i h hget hvalid
    have hslot : ((b.take_handle i).2).handles.items[i]? = some INVALID_HANDLE := by
      rw [hsnd]
      exact List.getElem?_set_eq_of_lt INVALID_HANDLE hlt
    refine ⟨take_handle_fst_of_untaken b i h hget hvalid, hslot, ?_, ?_⟩
    · rw [take_handle_none_of_taken _ i hslot]
    · rw [hsnd]
      simp [MessageBuf.n_handles]
  · intro hout
    have hnone : b.handles.items[i]? = none := List.getElem?_eq_none hout
    rw [take_handle_none_of_oob b i hnone]
    exact ⟨rfl, rfl⟩

/-- Witness for C5 at a concrete two-slot buffer: first take at 0 yields 7,
slot becomes the sentinel, the repeat take yields none, and index 5 is out of
range. -/
theorem C5_witness :
    ((⟨⟨[9], 1⟩, ⟨[7, 8], 2⟩⟩ : MessageBuf).take_handle 0).1 = some 7 ∧
    (((⟨⟨[9], 1⟩, ⟨[7, 8], 2⟩⟩ : MessageBuf).take_handle 0).2.take_handle 0).1 = none ∧
    ((⟨⟨[9], 1⟩, ⟨[7, 8], 2⟩⟩ : MessageBuf).take_handle 5).1 = none :=
  ⟨((C5_take_handle_once ⟨⟨[9], 1⟩, ⟨[7, 8], 2⟩⟩ 0).1 7 (by rfl) (by decide)).1,
   ((C5_take_handle_once ⟨⟨[9], 1⟩, ⟨[7, 8], 2⟩⟩ 0).1 7 (by rfl) (by decide)).2.2.1,
   ((C5_take_handle_once ⟨⟨[9], 1⟩, ⟨[7, 8], 2⟩⟩ 5).2 (by decide)).1⟩

/-- C6: dropping a MessageBuf closes exactly the untaken slots: the close log
of drop_handles has length equal to the number of untaken slots (channel.rs
flavor, where a taken slot holds the sentinel and is skipped), taking a handle
first removes exactly its one close, and for the lib.rs MessagePipe flavor the
slots from unused_ix on (its untaken ones, n_handles many) are closed. -/
theorem C6_drop_closes_exactly_untaken (b : MessageBuf) (i : Nat) (pb : PipeMessageBuf) :
    b.dropHandlesClosed.length = b.untakenCount ∧
    (∀ h, b.handles.items[i]? = some h → h ≠ INVALID_HANDLE →
      ((b.take_handle i).2).dropHandlesClosed.length + 1 = b.dropHandlesClosed.length) ∧
    pb.dropHandlesClosed.length = pb.n_handles := by
  refine ⟨rfl, ?_, ?_⟩
  · intro h hget hvalid
    rw [take_handle_snd_of_untaken b i h hget hvalid]
    simp only [MessageBuf.dropHandlesClosed]
    exact filter_set_invalid_length b.handles.items i h hget hvalid
  · simp [PipeMessageBuf.dropHandlesClosed, PipeMessageBuf.n_handles]

/-- Witness for C6 at a concrete buffer with one taken and two untaken slots:
two closes; after taking index 0 only one close remains. -/
theorem C6_witness :
    ((⟨⟨[], 0⟩, ⟨[7, 0, 8], 3⟩⟩ : MessageBuf).dropHandlesClosed.length = 2) ∧
    (((⟨⟨[], 0⟩, ⟨[7, 0, 8], 3⟩⟩ : MessageBuf).take_handle 0).2.dropHandlesClosed.length + 1 = 2) :=
  ⟨(C6_drop_closes_exactly_untaken ⟨⟨[], 0⟩, ⟨[7, 0, 8], 3⟩⟩ 0 ⟨[], [], 0⟩).1,
   (C6_drop_closes_exactly_untaken ⟨⟨[], 0⟩, ⟨[7, 0, 8], 3⟩⟩ 0 ⟨[], [], 0⟩).2.1 7 (by rfl) (by decide)⟩

/-- C9 counterexample: with two ready entries and a results vector of capacity
0, a successful WaitSet::wait returns Ok 2 but delivers zero records and does
not grow the vector's capacity — contradicting the claim that wait fills the
collection with one record per ready entry, growing it as needed so that no
retry loop is required. -/
theorem C9_counterexample :
    (WaitSet.wait NO_ERROR [⟨1, 0, ⟨0, 0⟩⟩, ⟨2, 0, ⟨0, 0⟩⟩] ⟨[], 0⟩).1 = .ok 2 ∧
    (WaitSet.wait NO_ERROR [⟨1, 0, ⟨0, 0⟩⟩, ⟨2, 0, ⟨0, 0⟩⟩] ⟨[], 0⟩).2.items.length = 0 ∧
    (WaitSet.wait NO_ERROR [⟨1, 0, ⟨0, 0⟩⟩, ⟨2, 0, ⟨0, 0⟩⟩] ⟨[], 0⟩).2.cap = 0 :=
  ⟨rfl, rfl, rfl⟩

/-- C9 (amended): on a successful poll WaitSet::wait sets the results vector to
the first min(capacity, ready-count) kernel ready records — one per ready
entry exactly when the pre-existing capacity suffices — without growing the
capacity, each delivered record being the corresponding ready entry (carrying
its cookie, local status and signal snapshot), and returns the maximum
possible result count for the caller to grow the vector and retry with. -/
theorem C9_waitset_wait_fills_to_capacity (ready : List WaitSetResult)
    (results : RVec WaitSetResult) :
    (WaitSet.wait NO_ERROR ready results).1 = .ok ready.length ∧
    (WaitSet.wait NO_ERROR ready results).2.items =
      ready.take (size_to_u32_sat results.cap) ∧
    (WaitSet.wait NO_ERROR ready results).2.cap = results.cap ∧
    (ready.length ≤ size_to_u32_sat results.cap →
      (WaitSet.wait NO_ERROR ready results).2.items = ready) ∧
    (∀ (i : Nat) (r : WaitSetResult),
      (WaitSet.wait NO_ERROR ready results).2.items[i]? = some r →
      ready[i]? = some r) := by
  have hcond : ¬ (NO_ERROR ≠ NO_ERROR) := fun hc => hc rfl
  unfold WaitSet.wait
  rw [if_neg hcond]
  refine ⟨rfl, rfl, rfl, ?_, ?_⟩
  · intro hle
    simp [List.take_of_length_le hle]
  · intro i r hget
    simp only [List.getElem?_take] at hget
    split at hget
    · exact hget
    · exact absurd hget (by simp)

/-- Witness for C9's amended statement: capacity 1, two ready entries — one
record delivered (the first ready entry), maximum 2 reported. -/
theorem C9_witness :
    (WaitSet.wait NO_ERROR [⟨1, 0, ⟨0, 0⟩⟩, ⟨2, 0, ⟨0, 0⟩⟩] ⟨[], 1⟩).1 = .ok 2 ∧
    [⟨1, 0, ⟨0, 0⟩⟩, ⟨2, 0, ⟨0, 0⟩⟩][0]? = some (⟨1, 0, ⟨0, 0⟩⟩ : WaitSetResult) :=
  ⟨(C9_waitset_wait_fills_to_capacity [⟨1, 0, ⟨0, 0⟩⟩, ⟨2, 0, ⟨0, 0⟩⟩] ⟨[], 1⟩).1,
   (C9_waitset_wait_fills_to_capacity [⟨1, 0, ⟨0, 0⟩⟩, ⟨2, 0, ⟨0, 0⟩⟩] ⟨[], 1⟩).2.2.2.2
     0 ⟨1, 0, ⟨0, 0⟩⟩ (by rfl)⟩

/-- C10: whenever the kernel wait reports anything other than NO_ERROR,
WaitSet::wait clears the caller's results vector before returning Err, so
after every failed wait the collection is empty and no stale entry is
observable. -/
theorem C10_waitset_wait_error_clears (kstatus : MxStatus) (ready : List WaitSetResult)
    (results : RVec WaitSetResult) (h : kstatus ≠ NO_ERROR) :
    (WaitSet.wait kstatus ready results).1 = .error ⟨kstatus⟩ ∧
    (WaitSet.wait kstatus ready results).2.items = [] := by
  unfold WaitSet.wait
  rw [if_pos h]
  exact ⟨rfl, rfl⟩

/-- Witness for C10 at a timed-out wait over a vector holding a stale record:
the record is gone and the raw code -23 is preserved. -/
theorem C10_witness :
    (WaitSet.wait (-23) [⟨1, 0, ⟨0, 0⟩⟩] ⟨[⟨9, 0, ⟨0, 0⟩⟩], 1⟩).1 = .error ⟨-23⟩ ∧
    (WaitSet.wait (-23) [⟨1, 0, ⟨0, 0⟩⟩] ⟨[⟨9, 0, ⟨0, 0⟩⟩], 1⟩).2.items = [] :=
  C10_waitset_wait_error_clears (-23) [⟨1, 0, ⟨0, 0⟩⟩] ⟨[⟨9, 0, ⟨0, 0⟩⟩], 1⟩ (by decide)

/-- C3: when the pending message exceeds the buffer's (saturated) capacities,
Channel::read_raw returns the distinguished Err carrying exactly the required
byte and handle counts and leaves the kernel state (hence the pending message)
unchanged, and any retry whose capacities suffice delivers exactly that
message; when the capacities suffice, read_raw succeeds and sets the buffer's
byte and handle lengths to exactly the delivered counts (the message's). -/
theorem C3_read_raw_too_small_protocol (st : ChannelPair) (side : Bool) (buf : MessageBuf)
    (m : Message) (rest : List Message) (hq : st.queueOf side = m :: rest) :
    ((m.bytes.length > size_to_u32_sat buf.bytes.cap ∨
      m.handles.length > size_to_u32_sat buf.handles.cap) →
      (Channel.read_raw st side buf).1 = .error (m.bytes.length, m.handles.length) ∧
      (Channel.read_raw st side buf).2.2 = st ∧
      (∀ buf2 : MessageBuf,
        m.bytes.length ≤ size_to_u32_sat buf2.bytes.cap →
        m.handles.length ≤ size_to_u32_sat buf2.handles.cap →
        (Channel.read_raw st side buf2).1 = .ok (.ok ()) ∧
        (Channel.read_raw st side buf2).2.1.bytesView = m.bytes ∧
        (Channel.read_raw st side buf2).2.1.handles.items = m.handles)) ∧
    (¬ (m.bytes.length > size_to_u32_sat buf.bytes.cap ∨
        m.handles.length > size_to_u32_sat buf.handles.cap) →
      (Channel.read_raw st side buf).1 = .ok (.ok ()) ∧
      (Channel.read_raw st side buf).2.1.bytesView.length = m.bytes.length ∧
      (Channel.read_raw st side buf).2.1.n_handles = m.handles.length) := by
  constructor
  · intro hbig
    rw [read_raw_too_small st side buf m rest hq hbig]
    refine ⟨rfl, rfl, ?_⟩
    intro buf2 hb2 hh2
    rw [read_raw_delivered st side buf2 m rest hq (by push_neg; exact ⟨hb2, hh2⟩)]
    exact ⟨rfl, rfl, rfl⟩
  · intro hfit
    rw [read_raw_delivered st side buf m rest hq hfit]
    exact ⟨rfl, rfl, rfl⟩

/-- Witness for C3 matching the crate's channel_read_raw_too_small test: a
pending 5-byte message read into a zero-capacity buffer reports Err (5, 0)
and leaves the message pending. -/
theorem C3_witness :
    (Channel.read_raw ⟨[⟨[104, 101, 108, 108, 111], []⟩], []⟩ false MessageBuf.new).1 =
      .error (5, 0) ∧
    (Channel.read_raw ⟨[⟨[104, 101, 108, 108, 111], []⟩], []⟩ false MessageBuf.new).2.2 =
      ⟨[⟨[104, 101, 108, 108, 111], []⟩], []⟩ :=
  have h := (C3_read_raw_too_small_protocol ⟨[⟨[104, 101, 108, 108, 111], []⟩], []⟩ false
    MessageBuf.new ⟨[104, 101, 108, 108, 111], []⟩ [] (by rfl)).1 (by decide)
  ⟨h.1, h.2.1⟩

/-- C4: on every too-small outcome from read_raw, Channel::read grows the
buffer so that both capacities are at least the reported requirements, and
(the pending message's required sizes being stable between probe and retry,
as in this single-reader model) the retry loop terminates: with any fuel of
at least 2 the loop ends with a definite outcome, the same one. -/
theorem C4_read_growth_and_termination (st : ChannelPair) (side : Bool) (buf : MessageBuf)
    (hwf : st.wf) (hbuf : buf.wf) :
    (∀ nb nh buf1 st1, Channel.read_raw st side buf = (.error (nb, nh), buf1, st1) →
      nb ≤ ((buf1.ensure_capacity_bytes nb).ensure_capacity_handles nh).bytes.cap ∧
      nh ≤ ((buf1.ensure_capacity_bytes nb).ensure_capacity_handles nh).handles.cap) ∧
    (∃ out, Channel.read st side buf = some out ∧
      ∀ fuel, 2 ≤ fuel → Channel.readLoop fuel st side buf = some out) := by
  constructor
  · intro nb nh buf1 st1 h
    obtain ⟨m, rest, hq, hnb, hnh, hbuf1, hst1⟩ := read_raw_err_inv st side buf nb nh buf1 st1 h
    subst hbuf1
    have hspec := grown_buf_spec buf.reset_handles nb nh (reset_handles_wf buf hbuf)
    exact ⟨hspec.1, hspec.2.1⟩
  · exact readLoop_two_spec st side buf hwf hbuf

/-- Witness for C4: a pending 3-byte message and an empty buffer — the read
terminates (one regrowth) with the same outcome at every fuel of at least 2. -/
theorem C4_witness :
    ∃ out, Channel.read ⟨[⟨[1, 2, 3], []⟩], []⟩ false MessageBuf.new = some out ∧
      ∀ fuel, 2 ≤ fuel →
        Channel.readLoop fuel ⟨[⟨[1, 2, 3], []⟩], []⟩ false MessageBuf.new = some out :=
  (C4_read_growth_and_termination ⟨[⟨[1, 2, 3], []⟩], []⟩ false MessageBuf.new
    (by simp only [ChannelPair.wf, Message.wf]; decide)
    ⟨Nat.le.refl, Nat.le.refl⟩).2

/-- C1: writing a payload P with handles H (both within the u32 transport
limits, handles valid) on one endpoint of a freshly created pair succeeds,
and the subsequent read on the peer endpoint succeeds, leaving the MessageBuf
with bytes exactly P and n_handles exactly H.length, every received handle
individually takeable as the valid handle that was sent. -/
theorem C1_channel_roundtrip (P : List Nat) (H : List Int)
    (hP : P.length < 2 ^ 32) (hH : H.length < 2 ^ 32)
    (hvalid : ∀ h ∈ H, h ≠ INVALID_HANDLE) :
    (Channel.write Channel.create false P H).1 = .ok () ∧
    (Channel.write Channel.create false P H).2.1 = [] ∧
    ∃ buf st2,
      Channel.read (Channel.write Channel.create false P H).2.2 true MessageBuf.new =
        some (.ok (), buf, st2) ∧
      buf.bytesView = P ∧ buf.n_handles = H.length ∧
      ∀ (i : Nat) (h : Int), H[i]? = some h →
        (buf.take_handle i).1 = some h ∧ h ≠ INVALID_HANDLE := by
  have hwrite : Channel.write Channel.create false P H = (.ok (), [], ⟨[], [⟨P, H⟩]⟩) := by
    unfold Channel.write Channel.create ChannelPair.enqueue
    rw [if_pos hP, if_pos hH]
    rfl
  rw [hwrite]
  have hwf : ChannelPair.wf ⟨[], [⟨P, H⟩]⟩ := by
    constructor
    · intro m hm
      exact absurd hm (List.not_mem_nil m)
    · intro m hm
      rw [List.mem_singleton] at hm
      subst hm
      exact ⟨hP, hH⟩
  obtain ⟨cb, ch, hread⟩ := read_delivers ⟨[], [⟨P, H⟩]⟩ true MessageBuf.new ⟨P, H⟩ [] rfl
    hwf ⟨Nat.le.refl, Nat.le.refl⟩
  refine ⟨rfl, rfl, ⟨⟨P, cb⟩, ⟨H, ch⟩⟩, ⟨[], []⟩, hread, rfl, rfl, ?_⟩
  intro i h hget
  have hmem : h ∈ H := List.getElem?_mem hget
  exact ⟨take_handle_fst_of_untaken ⟨⟨P, cb⟩, ⟨H, ch⟩⟩ i h hget (hvalid h hmem),
         hvalid h hmem⟩

/-- Witness for C1 at payload "hi" with two valid handles 7 and 8. -/
theorem C1_witness :
    (Channel.write Channel.create false [104, 105] [7, 8]).1 = .ok () ∧
    (Channel.write Channel.create false [104, 105] [7, 8]).2.1 = [] ∧
    ∃ buf st2,
      Channel.read (Channel.write Channel.create false [104, 105] [7, 8]).2.2 true
        MessageBuf.new = some (.ok (), buf, st2) ∧
      buf.bytesView = [104, 105] ∧ buf.n_handles = 2 ∧
      ∀ (i : Nat) (h : Int), [(7 : Int), 8][i]? = some h →
        (buf.take_handle i).1 = some h ∧ h ≠ INVALID_HANDLE :=
  C1_channel_roundtrip [104, 105] [7, 8] (by decide) (by decide) (by decide)

/-- C7 counterexample: the reset performed at the start of a read does not
clear the byte region. A MessageBuf holding stale byte 7 still shows it after
reset_handles, and after a read_raw that fails with a too-small outcome the
stale byte from the previous message is still observable through bytes(). -/
theorem C7_counterexample :
    (MessageBuf.reset_handles ⟨⟨[7], 1⟩, ⟨[], 0⟩⟩).bytesView = [7] ∧
    (Channel.read_raw ⟨[⟨[1, 2, 3], []⟩], []⟩ false ⟨⟨[7], 1⟩, ⟨[], 0⟩⟩).2.1.bytesView = [7] ∧
    ([7] : List Nat) ≠ [] :=
  ⟨rfl, rfl, by decide⟩

/-- C7 (amended): the reset performed at the start of every read closes every
untaken handle in the buffer (exactly the untaken count many closes) and
clears the handle region only — the byte region is left as it was, so stale
bytes remain observable until the next successful read overwrites them, while
no stale handle is ever observable: after any read_raw the buffer's handle
region is empty or exactly the newly delivered message's handles. The lib.rs
MessagePipe flavor's reset likewise clears its handle region and marker and
leaves its bytes untouched. -/
theorem C7_reset_clears_handles_not_bytes (b : MessageBuf) (pb : PipeMessageBuf)
    (st : ChannelPair) (side : Bool) (buf : MessageBuf) :
    b.reset_handles.handles.items = [] ∧
    b.reset_handles.bytes = b.bytes ∧
    b.dropHandlesClosed.length = b.untakenCount ∧
    ((Channel.read_raw st side buf).2.1.handles.items = [] ∨
      ∃ m rest, st.queueOf side = m :: rest ∧
        (Channel.read_raw st side buf).2.1.handles.items = m.handles) ∧
    pb.reset_handles.handles = [] ∧ pb.reset_handles.unused_ix = 0 ∧
    pb.reset_handles.bytes = pb.bytes := by
  refine ⟨rfl, rfl, rfl, ?_, rfl, rfl, rfl⟩
  rcases hq : st.queueOf side with _ | ⟨m, rest⟩
  · rw [read_raw_empty st side buf hq]
    left
    rfl
  · by_cases hbig : (m.bytes.length > size_to_u32_sat buf.bytes.cap ∨
                     m.handles.length > size_to_u32_sat buf.handles.cap)
    · rw [read_raw_too_small st side buf m rest hq hbig]
      left
      rfl
    · rw [read_raw_delivered st side buf m rest hq hbig]
      right
      exact ⟨m, rest, rfl, rfl⟩

end Magenta
